import Mathlib

set_option maxHeartbeats 1000000

/- Shallow embedding of the TimeKeeper clicker module (the BaseClicker,
   IntervalClicker and ScheduledClicker classes) and of the tempo-power
   beat adjustment performed by the file-mode audio controller.
   Times are rationals; JavaScript numbers that may be NaN or infinite
   are modelled explicitly. -/

namespace TimeKeeper

/-- A JavaScript number as used by the clicker code: finite values are
rationals, NaN and the two infinities are explicit constructors
(negative zero is not distinguished from zero). -/
inductive JSNum where
  | num (q : ℚ)
  | nan
  | inf
  | ninf
deriving DecidableEq, Repr, Inhabited

/-- Number.isFinite / isFinite on a number argument. -/
def JSNum.isFinite : JSNum → Bool
  | .num _ => true
  | _ => false

/-- The rational value of a finite JSNum; junk value 0 otherwise. -/
def JSNum.toQ : JSNum → ℚ
  | .num q => q
  | _ => 0

/-- The JavaScript expression 60 / x.  60 / 0 is Infinity, 60 / NaN is
NaN, 60 / Infinity and 60 / -Infinity are (negative) zero, modelled as 0. -/
def js60div : JSNum → JSNum
  | .num q => if q = 0 then .inf else .num (60 / q)
  | .nan => .nan
  | .inf => .num 0
  | .ninf => .num 0

/-- Errors thrown by the clicker module.  Validation errors carry no
message text; the non-consecutive error carries the two indices and the
two values interpolated into its message string. -/
inductive ClickerError where
  | closedClicker
  | badWhen
  | badIntervalType
  | badIntervalTime
  | noDestination
  | emptyClicks
  | badOffset
  | nonConsecutive (i j : ℕ) (vi vj : ℚ)
deriving DecidableEq, Repr

/-- The three-state clicker lifecycle. -/
inductive ClickerState where
  | ready
  | active
  | closed
deriving DecidableEq, Repr

/-- The fixed click duration (0.015 s). -/
def clickDuration : ℚ := 3 / 200

/-- IntervalClicker.MIN_INTERVAL = 1 / 60. -/
def minInterval : ℚ := 1 / 60

/-- The combined check on the when / firstClickAfter argument:
not finite, or negative. -/
def whenInvalid (w : JSNum) : Bool := !w.isFinite || decide (w.toQ < 0)

/-- The combined check on the converted interval time: not finite, or
below MIN_INTERVAL. -/
def intervalTimeInvalid (t : JSNum) : Bool :=
  !t.isFinite || decide (t.toQ < minInterval)

/-- Argument of connect and disconnect.  JS truthiness: null and
undefined are falsy, a single node and any array (even the empty
array) are truthy. -/
inductive DestArg where
  | nullish
  | single (d : ℕ)
  | arr (ds : List ℕ)
deriving DecidableEq, Repr

/-- Normalisation performed by connect and disconnect: a single node is
wrapped into a one-element array. -/
def DestArg.toList : DestArg → List ℕ
  | .nullish => []
  | .single d => [d]
  | .arr ds => ds

/-- BaseClicker._addDestination: push unless already present. -/
def addDestination (dests : List ℕ) (d : ℕ) : List ℕ :=
  if d ∈ dests then dests else dests ++ [d]

/-- BaseClicker._removeDestination: splice out the first occurrence,
no-op when absent. -/
def removeDestination (dests : List ℕ) (d : ℕ) : List ℕ := dests.erase d

/-- One entry of the click pattern passed to the IntervalClicker
constructor: oscillator type, frequency, and the 1-based beat numbers
this click type is used for. -/
structure ClickType where
  type : String
  frequency : ℚ
  beats : List ℕ
deriving DecidableEq, Repr, Inhabited

/-- The default click pattern entry of the constructor. -/
def defaultClick : ClickType := ⟨"square", 440, [1]⟩

/-- A live oscillator source: timbre, current routing, and its
scheduled start and stop times once scheduled. -/
structure OscSource where
  oscType : String
  frequency : ℚ
  dests : List ℕ
  startTime : Option ℚ
  stopTime : Option ℚ
deriving DecidableEq, Repr, Inhabited

/-- Connect a live source to one more destination (WebAudio ignores a
duplicate connection with identical termini). -/
def srcConnect (src : OscSource) (d : ℕ) : OscSource :=
  { src with dests := addDestination src.dests d }

/-- Disconnect a live source from every destination. -/
def srcDisconnectAll (src : OscSource) : OscSource := { src with dests := [] }

/-- Disconnect a live source from one destination. -/
def srcDisconnect (src : OscSource) (d : ℕ) : OscSource :=
  { src with dests := src.dests.erase d }

/-- The mutable fields of an IntervalClicker instance. -/
structure IntervalState where
  state : ClickerState
  destinations : List ℕ
  contextBound : Bool
  pattern : List ClickType
  currentSource : Option OscSource
  futureSource : Option OscSource
  interval : Option ℚ
  next : Option ℚ
  timeContextStart : Option ℚ
  timeFirstClick : Option ℚ
  beatCountScheduling : ℕ
  beatCountCurrent : ℕ
deriving DecidableEq, Repr

/-- The interval argument object of IntervalClicker.start.  It is a
mutable caller-owned object; start may overwrite its time field. -/
structure IntervalArg where
  time : JSNum
  type : String
deriving DecidableEq, Repr

namespace IntervalClicker

/-- The IntervalClicker constructor: options.clicks when given (an
empty array is truthy in JS and is kept as is), else the default
single-entry pattern. -/
def new (clicks : Option (List ClickType)) : IntervalState :=
  { state := .ready, destinations := [], contextBound := true,
    pattern := clicks.getD [defaultClick],
    currentSource := none, futureSource := none,
    interval := some 0, next := none,
    timeContextStart := none, timeFirstClick := none,
    beatCountScheduling := 0, beatCountCurrent := 0 }

/-- Math.max over all beat numbers of all pattern entries.  The JS
Math.max of an empty spread is -Infinity; the model returns 0 there and
every theorem about it assumes a non-empty pattern. -/
def maxBeat (pattern : List ClickType) : ℕ :=
  (pattern.flatMap ClickType.beats).foldr max 0

/-- IntervalClicker._getBeatNumber. -/
def getBeatNumber (s : IntervalState) : ℕ :=
  s.beatCountScheduling % maxBeat s.pattern + 1

/-- The click type lookup of _makeSource: first entry whose beats list
contains the beat number, else the first entry of the pattern. -/
def findClickType (pattern : List ClickType) (beat : ℕ) : ClickType :=
  (pattern.find? (fun ct => beat ∈ ct.beats)).getD (pattern.headD defaultClick)

/-- IntervalClicker._makeSource: a fresh oscillator with the timbre of
the given beat, wired to all current destinations. -/
def makeSource (s : IntervalState) (beat : ℕ) : OscSource :=
  let ct := findClickType s.pattern beat
  { oscType := ct.type, frequency := ct.frequency, dests := s.destinations,
    startTime := none, stopTime := none }

/-- IntervalClicker._scheduleSource: start at the given time, stop a
click duration later. -/
def scheduleSource (src : OscSource) (when : ℚ) : OscSource :=
  { src with startTime := some when, stopTime := some (when + clickDuration) }

/-- IntervalClicker._disposeSources: stop and drop both slots. -/
def disposeSources (s : IntervalState) : IntervalState :=
  { s with currentSource := none, futureSource := none }

/-- IntervalClicker.getCurrentBeat.  The JS expression is
beatCountCurrent % maxBeat + 1 (remainder binds tighter than plus). -/
def getCurrentBeat (s : IntervalState) : ℕ :=
  s.beatCountCurrent % maxBeat s.pattern + 1

/-- Body of the connect loop: add the destination to the list and wire
both live sources to it. -/
def connectStep (st : IntervalState) (x : ℕ) : IntervalState :=
  { st with
    destinations := addDestination st.destinations x,
    currentSource := st.currentSource.map (srcConnect · x),
    futureSource := st.futureSource.map (srcConnect · x) }

/-- IntervalClicker.connect. -/
def connect (s : IntervalState) (dest : DestArg) :
    Except ClickerError Unit × IntervalState :=
  if s.state = .closed then (.error .closedClicker, s)
  else match dest with
    | .nullish => (.error .noDestination, s)
    | d => (.ok (), d.toList.foldl connectStep s)

/-- IntervalClicker.disconnect.  With a null argument every destination
is dropped and both live sources are fully unrouted.  With a list
argument, the source passes the whole array to AudioNode.disconnect for
each element; the model renders that as unrouting each listed node. -/
def disconnect (s : IntervalState) (dest : DestArg) :
    Except ClickerError Unit × IntervalState :=
  if s.state = .closed then (.error .closedClicker, s)
  else match dest with
    | .nullish =>
      (.ok (),
        { s with
          destinations := [],
          currentSource := s.currentSource.map srcDisconnectAll,
          futureSource := s.futureSource.map srcDisconnectAll })
    | d =>
      (.ok (), d.toList.foldl (fun st x =>
        { st with
          destinations := removeDestination st.destinations x,
          currentSource := st.currentSource.map (srcDisconnect · x),
          futureSource := st.futureSource.map (srcDisconnect · x) }) s)

/-- IntervalClicker.pause. -/
def pause (s : IntervalState) : Except ClickerError Unit × IntervalState :=
  if s.state = .closed then (.error .closedClicker, s)
  else
    (.ok (),
      { disposeSources s with
        interval := none, next := none,
        beatCountScheduling := 0, beatCountCurrent := 0,
        state := .ready })

/-- IntervalClicker.close: no-op when already closed, otherwise
disconnect everything, dispose both sources, release the context and
zero the counters. -/
def close (s : IntervalState) : IntervalState :=
  if s.state = .closed then s
  else
    { s with
      destinations := [], currentSource := none, futureSource := none,
      contextBound := false, interval := some 0, next := some 0,
      beatCountScheduling := 0, beatCountCurrent := 0, state := .closed }

/-- Result of IntervalClicker.start: the thrown-or-ok outcome, the
clicker state after the call, and the caller-owned interval argument
object after the call (start may have mutated its time field). -/
structure StartResult where
  result : Except ClickerError Unit
  state : IntervalState
  arg : IntervalArg
deriving Repr

/-- IntervalClicker.start.  Mirrors the source order: closed check,
when validation, interval.type conversion (mutating the argument
object), interval.time validation, then disposal and scheduling of the
first click and transition to active.  The periodic counter loop the
call registers is modelled separately as a transition system. -/
def start (s : IntervalState) (now : ℚ) (when : JSNum) (arg : IntervalArg) :
    StartResult :=
  if s.state = .closed then ⟨.error .closedClicker, s, arg⟩
  else if whenInvalid when then ⟨.error .badWhen, s, arg⟩
  else if arg.type ≠ "spc" ∧ arg.type ≠ "bpm" then
    ⟨.error .badIntervalType, s, arg⟩
  else
    let arg' : IntervalArg :=
      if arg.type = "bpm" then { arg with time := js60div arg.time } else arg
    if intervalTimeInvalid arg'.time then ⟨.error .badIntervalTime, s, arg'⟩
    else
      let s1 := disposeSources s
      let tFirst := now + when.toQ
      let s2 :=
        { s1 with
          timeContextStart := some now,
          timeFirstClick := some tFirst,
          interval := some arg'.time.toQ,
          beatCountScheduling := 0, beatCountCurrent := 0,
          next := some tFirst }
      let src := scheduleSource (makeSource s2 (getBeatNumber s2)) tFirst
      ⟨.ok (), { s2 with currentSource := some src, state := .active }, arg'⟩

end IntervalClicker

/-- A live scheduled click of the ScheduledClicker: the index into the
click-time array it was created for, its absolute start and stop times,
and its routing. -/
structure SchedSource where
  clickIndex : ℕ
  startTime : ℚ
  stopTime : ℚ
  dests : List ℕ
deriving DecidableEq, Repr, Inhabited

/-- The mutable fields of a ScheduledClicker instance. -/
structure ScheduledState where
  state : ClickerState
  destinations : List ℕ
  contextBound : Bool
  oscType : String
  frequency : ℚ
  sources : List SchedSource
  clickTimes : Option (List ℚ)
  timeAtStart : Option ℚ
  nextClickIndex : ℕ
deriving DecidableEq, Repr

/-- Connect a live scheduled click to one more destination. -/
def schedSrcConnect (src : SchedSource) (d : ℕ) : SchedSource :=
  { src with dests := addDestination src.dests d }

/-- Disconnect a live scheduled click from every destination. -/
def schedSrcDisconnectAll (src : SchedSource) : SchedSource :=
  { src with dests := [] }

/-- Disconnect a live scheduled click from one destination. -/
def schedSrcDisconnect (src : SchedSource) (d : ℕ) : SchedSource :=
  { src with dests := src.dests.erase d }

namespace ScheduledClicker

/-- The ScheduledClicker constructor with default oscillator options. -/
def new : ScheduledState :=
  { state := .ready, destinations := [], contextBound := true,
    oscType := "square", frequency := 440, sources := [],
    clickTimes := none, timeAtStart := none, nextClickIndex := 0 }

/-- Body of the connect loop: add the destination to the list and wire
every live scheduled click to it. -/
def connectStep (st : ScheduledState) (x : ℕ) : ScheduledState :=
  { st with
    destinations := addDestination st.destinations x,
    sources := st.sources.map (schedSrcConnect · x) }

/-- ScheduledClicker.connect. -/
def connect (s : ScheduledState) (dest : DestArg) :
    Except ClickerError Unit × ScheduledState :=
  if s.state = .closed then (.error .closedClicker, s)
  else match dest with
    | .nullish => (.error .noDestination, s)
    | d => (.ok (), d.toList.foldl connectStep s)

/-- ScheduledClicker.disconnect. -/
def disconnect (s : ScheduledState) (dest : DestArg) :
    Except ClickerError Unit × ScheduledState :=
  if s.state = .closed then (.error .closedClicker, s)
  else match dest with
    | .nullish =>
      (.ok (),
        { s with
          destinations := [],
          sources := s.sources.map schedSrcDisconnectAll })
    | d =>
      (.ok (), d.toList.foldl (fun st x =>
        { st with
          destinations := removeDestination st.destinations x,
          sources := st.sources.map (schedSrcDisconnect · x) }) s)

/-- ScheduledClicker.pause. -/
def pause (s : ScheduledState) : Except ClickerError Unit × ScheduledState :=
  if s.state = .closed then (.error .closedClicker, s)
  else
    (.ok (),
      { s with
        sources := [], clickTimes := none, nextClickIndex := 0,
        state := .ready })

/-- ScheduledClicker.close: no-op when already closed. -/
def close (s : ScheduledState) : ScheduledState :=
  if s.state = .closed then s
  else
    { s with
      destinations := [], sources := [], contextBound := false,
      clickTimes := none, state := .closed }

/-- The scan loop at the top of ScheduledClicker.start: advance c while
it is not the last index and the click time at c is still before
firstClickAfter, checking on the way that each visited adjacent pair is
strictly increasing and throwing the non-consecutive error naming that
pair otherwise. -/
def scan (clicks : List ℚ) (r : ℚ) (c : ℕ) : Except ClickerError ℕ :=
  if h : c < clicks.length - 1 ∧ clicks.getD c 0 < r then
    let nxt := clicks.getD (c + 1) 0
    if clicks.getD c 0 ≥ nxt then
      .error (.nonConsecutive c (c + 1) (clicks.getD c 0) nxt)
    else scan clicks r (c + 1)
  else .ok c
termination_by clicks.length - c
decreasing_by omega

/-- The schedule closure of ScheduledClicker.start: one click scheduled
at now + (clickTimes at the index minus firstClickAfter) + offset,
stopping a click duration later, routed to all current destinations. -/
def mkSchedSource (dests : List ℕ) (clicks : List ℚ) (now r o : ℚ) (j : ℕ) :
    SchedSource :=
  { clickIndex := j, startTime := now + (clicks.getD j 0 - r) + o,
    stopTime := now + (clicks.getD j 0 - r) + o + clickDuration,
    dests := dests }

/-- The scheduling loop of ScheduledClicker.start: from index c to the
end, validate that each adjacent pair is strictly increasing and push
one scheduled click per index.  Note the error carries indices c and
c + 1 and the value at index c: the source interpolates clicks[c] and
the fixed pair [c] >= [c+1] into the message even when the offending
pair is at c + i, c + i + 1. -/
def schedLoop (dests : List ℕ) (clicks : List ℚ) (now r o : ℚ) (c i : ℕ)
    (acc : List SchedSource) : Except ClickerError Unit × List SchedSource :=
  if h : c + i < clicks.length - 1 then
    let nxt := clicks.getD (c + i + 1) 0
    if clicks.getD (c + i) 0 ≥ nxt then
      (.error (.nonConsecutive c (c + 1) (clicks.getD c 0) nxt), acc)
    else
      schedLoop dests clicks now r o c (i + 1)
        (acc ++ [mkSchedSource dests clicks now r o (c + i)])
  else
    (.ok (), acc ++ [mkSchedSource dests clicks now r o (c + i)])
termination_by clicks.length - (c + i)
decreasing_by omega

/-- ScheduledClicker.start.  Mirrors the source order: closed check,
argument validation, disposal of previous clicks, the scan for the
first index at or after firstClickAfter, the early pause return when
every click time is before firstClickAfter, then the batch scheduling
loop and the transition to active. -/
def start (s : ScheduledState) (now : ℚ) (firstClickAfter : JSNum)
    (clicks : List ℚ) (offset : JSNum) :
    Except ClickerError Unit × ScheduledState :=
  if s.state = .closed then (.error .closedClicker, s)
  else if whenInvalid firstClickAfter then (.error .badWhen, s)
  else if clicks.isEmpty then (.error .emptyClicks, s)
  else if !offset.isFinite then (.error .badOffset, s)
  else
    let r := firstClickAfter.toQ
    let o := offset.toQ
    let s1 := { s with sources := [] }
    match scan clicks r 0 with
    | .error e => (.error e, s1)
    | .ok c =>
      if clicks.getD c 0 < r then pause s1
      else
        let s2 :=
          { s1 with
            timeAtStart := some now, clickTimes := some clicks,
            nextClickIndex := c }
        match schedLoop s2.destinations clicks now r o c 0 [] with
        | (.error e, srcs) => (.error e, { s2 with sources := srcs })
        | (.ok _, srcs) =>
          (.ok (), { s2 with sources := srcs, state := .active })

end ScheduledClicker

/-- The subdivision loop of the tempo-power adjustment in the file-mode
audio controller (positive power): every inter-beat interval [i, i+1]
is replaced by multiplier equal sub-steps starting at the beat at i.
The nested writes into the result array at index i * multiplier + j are
rendered as a flat map in the same order. -/
def subdivide (beats : List ℚ) (multiplier : ℕ) : List ℚ :=
  (List.range (beats.length - 1)).flatMap (fun i =>
    (List.range multiplier).map (fun j : ℕ =>
      beats.getD i 0 + (beats.getD (i + 1) 0 - beats.getD i 0) / multiplier * j))

/-- The tempo-power adjustment of the file-mode audio controller: power
zero copies the detected beats, a positive power subdivides each
inter-beat interval into 2 to the power sub-intervals and appends the
final beat, and a negative power keeps every (2 to the minus power)-th
beat, the new length being the ceiling of the old length over the
divisor. -/
def adjustBeats (beats : List ℚ) (p : ℤ) : List ℚ :=
  if p = 0 then beats
  else if 0 < p then
    subdivide beats (2 ^ p.toNat) ++ [beats.getD (beats.length - 1) 0]
  else
    let divisor := 2 ^ (-p).toNat
    (List.range ((beats.length + divisor - 1) / divisor)).map
      (fun i => beats.getD (i * divisor) 0)

/-- State of the periodic counter loop registered by
IntervalClicker.start: the audio-clock time, the next scheduled click
time, both beat counters, the list of clicks scheduled so far as pairs
of beat index and scheduled start time, and the number of ended
notifications already delivered. -/
structure TickState where
  now : ℚ
  next : ℚ
  sched : ℕ
  cur : ℕ
  clicks : List (ℕ × ℚ)
  delivered : ℕ
deriving DecidableEq, Repr

/-- The counter-loop state right after IntervalClicker.start returns:
the first click is already scheduled at the first-click time t0 and
both counters are zero. -/
def tickInit (t0 startNow : ℚ) : TickState :=
  ⟨startNow, t0, 0, 0, [(0, t0)], 0⟩

/-- One event of the counter loop, for first-click time t0, interval T
and click duration d.  A tick at clock time tau either does nothing
(tau before next) or schedules the following beat at the recomputed
time t0 + sched * T; the ended notification of click k (delivered in
schedule order, no earlier than its stop time) runs the onended handler
of the source: the initial click only disconnects, every later click
also sets the current counter to the live value of the scheduling
counter minus one. -/
inductive TickStep (t0 T d : ℚ) : TickState → TickState → Prop
  | tickIdle (s : TickState) (tau : ℚ) (hmono : s.now ≤ tau)
      (hlt : tau < s.next) :
      TickStep t0 T d s { s with now := tau }
  | tickSched (s : TickState) (tau : ℚ) (hmono : s.now ≤ tau)
      (hge : s.next ≤ tau) :
      TickStep t0 T d s
        { now := tau, next := t0 + (s.sched + 1) * T, sched := s.sched + 1,
          cur := s.cur,
          clicks := s.clicks ++ [(s.sched + 1, t0 + (s.sched + 1) * T)],
          delivered := s.delivered }
  | clickEnded (s : TickState) (tau : ℚ) (hmono : s.now ≤ tau)
      (hlive : s.delivered < s.clicks.length)
      (hend : (s.clicks.getD s.delivered (0, 0)).2 + d ≤ tau) :
      TickStep t0 T d s
        { s with
          now := tau, delivered := s.delivered + 1,
          cur := if s.delivered = 0 then s.cur else s.sched - 1 }

/-- States of the counter loop reachable from the state left by a start
call whose clock read startNow and whose first click time is t0 (so
startNow is at most t0, the when argument being non-negative). -/
inductive TickReachable (t0 T d : ℚ) : TickState → Prop
  | init (startNow : ℚ) (h : startNow ≤ t0) :
      TickReachable t0 T d (tickInit t0 startNow)
  | step (s s' : TickState) (hr : TickReachable t0 T d s)
      (hs : TickStep t0 T d s s') : TickReachable t0 T d s'

/- Helper lemmas. -/

lemma le_foldr_max (l : List ℕ) (b : ℕ) (hb : b ∈ l) : b ≤ l.foldr max 0 := by
  induction l with
  | nil => cases hb
  | cons x xs ih =>
    rcases List.mem_cons.mp hb with h | h
    · subst h; exact le_max_left _ _
    · exact le_trans (ih h) (le_max_right _ _)

lemma foldr_max_mem (l : List ℕ) (hne : l ≠ []) : l.foldr max 0 ∈ l := by
  induction l with
  | nil => cases hne rfl
  | cons x xs ih =>
    cases hxs : xs with
    | nil => simp
    | cons y ys =>
      subst hxs
      rw [List.foldr_cons]
      rcases le_total ((y :: ys).foldr max 0) x with h | h
      · rw [max_eq_left h]; exact List.mem_cons_self x _
      · rw [max_eq_right h]; exact List.mem_cons_of_mem x (ih (by simp))

lemma maxBeat_pos (pattern : List ClickType)
    (hne : pattern.flatMap ClickType.beats ≠ [])
    (hpos : ∀ b ∈ pattern.flatMap ClickType.beats, 1 ≤ b) :
    1 ≤ IntervalClicker.maxBeat pattern :=
  hpos _ (foldr_max_mem _ hne)

/-- Claim C7: for an IntervalClicker whose click pattern has cycle
length L (the maximum beat position listed across all pattern entries,
here shown to be exactly what maxBeat computes), getCurrentBeat equals
beatCountCurrent mod L plus 1, hence always lies in [1, L], and
advancing beatCountCurrent by L returns the same value (period L). -/
theorem claimC7_current_beat_cycles (s : IntervalState)
    (hne : s.pattern.flatMap ClickType.beats ≠ [])
    (hpos : ∀ b ∈ s.pattern.flatMap ClickType.beats, 1 ≤ b) :
    IntervalClicker.getCurrentBeat s
        = s.beatCountCurrent % IntervalClicker.maxBeat s.pattern + 1 ∧
    1 ≤ IntervalClicker.getCurrentBeat s ∧
    IntervalClicker.getCurrentBeat s ≤ IntervalClicker.maxBeat s.pattern ∧
    (∀ b ∈ s.pattern.flatMap ClickType.beats,
      b ≤ IntervalClicker.maxBeat s.pattern) ∧
    IntervalClicker.maxBeat s.pattern ∈ s.pattern.flatMap ClickType.beats ∧
    IntervalClicker.getCurrentBeat
        { s with beatCountCurrent :=
            s.beatCountCurrent + IntervalClicker.maxBeat s.pattern }
      = IntervalClicker.getCurrentBeat s := by
  have hM : 1 ≤ IntervalClicker.maxBeat s.pattern := maxBeat_pos _ hne hpos
  refine ⟨rfl, Nat.le_add_left _ _, ?_, ?_, ?_, ?_⟩
  · have := Nat.mod_lt s.beatCountCurrent (lt_of_lt_of_le Nat.zero_lt_one hM)
    exact Nat.succ_le_of_lt this
  · exact fun b hb => le_foldr_max _ b hb
  · exact foldr_max_mem _ hne
  · show (s.beatCountCurrent + IntervalClicker.maxBeat s.pattern)
        % IntervalClicker.maxBeat s.pattern + 1 = _
    rw [Nat.add_mod_right]
    rfl

/-- Witness for claim C7 at a two-entry pattern with cycle length 4 and
five completed clicks: the current beat is 5 mod 4 plus 1 = 2. -/
theorem claimC7_witness :
    1 ≤ IntervalClicker.getCurrentBeat
        { IntervalClicker.new (some [⟨"square", 440, [1]⟩, ⟨"sine", 880, [2, 4]⟩]) with
          beatCountCurrent := 5 } ∧
    IntervalClicker.getCurrentBeat
        { IntervalClicker.new (some [⟨"square", 440, [1]⟩, ⟨"sine", 880, [2, 4]⟩]) with
          beatCountCurrent := 5 } = 2 :=
  ⟨(claimC7_current_beat_cycles _ (by decide) (by decide)).2.1, by decide⟩

lemma intervalClose_of_closed (s : IntervalState)
    (h : s.state = .closed) : IntervalClicker.close s = s := by
  unfold IntervalClicker.close
  simp [h]

lemma scheduledClose_of_closed (s : ScheduledState)
    (h : s.state = .closed) : ScheduledClicker.close s = s := by
  unfold ScheduledClicker.close
  simp [h]

lemma intervalClose_state (s : IntervalState) :
    (IntervalClicker.close s).state = .closed := by
  unfold IntervalClicker.close
  split
  · assumption
  · rfl

lemma scheduledClose_state (s : ScheduledState) :
    (ScheduledClicker.close s).state = .closed := by
  unfold ScheduledClicker.close
  split
  · assumption
  · rfl

/-- Claim C3: for both clickers, once close has been called the state is
closed, every subsequent connect, disconnect, start, or pause fails with
the lifecycle error and leaves the instance unchanged, and close called
again is a no-op returning the same state (close never throws). -/
theorem claimC3_closed_state_absorbing (si : IntervalState)
    (ss : ScheduledState) (a : DestArg) (now : ℚ) (w : JSNum)
    (ia : IntervalArg) (clicks : List ℚ) (o : JSNum) :
    (IntervalClicker.close si).state = .closed ∧
    IntervalClicker.connect (IntervalClicker.close si) a
      = (.error .closedClicker, IntervalClicker.close si) ∧
    IntervalClicker.disconnect (IntervalClicker.close si) a
      = (.error .closedClicker, IntervalClicker.close si) ∧
    IntervalClicker.start (IntervalClicker.close si) now w ia
      = ⟨.error .closedClicker, IntervalClicker.close si, ia⟩ ∧
    IntervalClicker.pause (IntervalClicker.close si)
      = (.error .closedClicker, IntervalClicker.close si) ∧
    IntervalClicker.close (IntervalClicker.close si) = IntervalClicker.close si ∧
    (ScheduledClicker.close ss).state = .closed ∧
    ScheduledClicker.connect (ScheduledClicker.close ss) a
      = (.error .closedClicker, ScheduledClicker.close ss) ∧
    ScheduledClicker.disconnect (ScheduledClicker.close ss) a
      = (.error .closedClicker, ScheduledClicker.close ss) ∧
    ScheduledClicker.start (ScheduledClicker.close ss) now w clicks o
      = (.error .closedClicker, ScheduledClicker.close ss) ∧
    ScheduledClicker.pause (ScheduledClicker.close ss)
      = (.error .closedClicker, ScheduledClicker.close ss) ∧
    ScheduledClicker.close (ScheduledClicker.close ss)
      = ScheduledClicker.close ss := by
  have hi := intervalClose_state si
  have hs := scheduledClose_state ss
  refine ⟨hi, ?_, ?_, ?_, ?_, ?_, hs, ?_, ?_, ?_, ?_, ?_⟩
  · unfold IntervalClicker.connect; simp [hi]
  · unfold IntervalClicker.disconnect; simp [hi]
  · unfold IntervalClicker.start; simp [hi]
  · unfold IntervalClicker.pause; simp [hi]
  · exact intervalClose_of_closed _ hi
  · unfold ScheduledClicker.connect; simp [hs]
  · unfold ScheduledClicker.disconnect; simp [hs]
  · unfold ScheduledClicker.start; simp [hs]
  · unfold ScheduledClicker.pause; simp [hs]
  · exact scheduledClose_of_closed _ hs

lemma mem_foldl_addDestination (ds : List ℕ) (init : List ℕ) (x : ℕ)
    (hx : x ∈ ds ∨ x ∈ init) : x ∈ ds.foldl addDestination init := by
  induction ds generalizing init with
  | nil => simpa using hx.resolve_left (by simp)
  | cons y ys ih =>
    rw [List.foldl_cons]
    refine ih _ ?_
    rcases hx with hx | hx
    · rcases List.mem_cons.mp hx with h | h
      · subst h
        right
        unfold addDestination
        split
        · assumption
        · simp
      · exact Or.inl h
    · right
      unfold addDestination
      split
      · assumption
      · exact List.mem_append_left _ hx

lemma intervalConnect_foldl_destinations (ds : List ℕ) (st : IntervalState) :
    (ds.foldl IntervalClicker.connectStep st).destinations
      = ds.foldl addDestination st.destinations := by
  induction ds generalizing st with
  | nil => rfl
  | cons y ys ih => rw [List.foldl_cons, List.foldl_cons, ih]; rfl

lemma scheduledConnect_foldl_destinations (ds : List ℕ) (st : ScheduledState) :
    (ds.foldl ScheduledClicker.connectStep st).destinations
      = ds.foldl addDestination st.destinations := by
  induction ds generalizing st with
  | nil => rfl
  | cons y ys ih => rw [List.foldl_cons, List.foldl_cons, ih]; rfl

lemma intervalConnect_not_closed (s : IntervalState)
    (h : s.state ≠ .closed) (dest : DestArg) (hd : dest ≠ .nullish) :
    IntervalClicker.connect s dest
      = (.ok (), dest.toList.foldl IntervalClicker.connectStep s) := by
  unfold IntervalClicker.connect
  rw [if_neg h]
  cases dest with
  | nullish => cases hd rfl
  | single d => rfl
  | arr ds => rfl

lemma scheduledConnect_not_closed (s : ScheduledState)
    (h : s.state ≠ .closed) (dest : DestArg) (hd : dest ≠ .nullish) :
    ScheduledClicker.connect s dest
      = (.ok (), dest.toList.foldl ScheduledClicker.connectStep s) := by
  unfold ScheduledClicker.connect
  rw [if_neg h]
  cases dest with
  | nullish => cases hd rfl
  | single d => rfl
  | arr ds => rfl

/-- Counterexample for claim C9: connect with an empty array does not
fail.  A JS array is truthy even when empty, so the no-destination
check does not fire; the call returns normally having added nothing. -/
theorem claimC9_counterexample :
    (IntervalClicker.connect (IntervalClicker.new none) (.arr [])).1 = .ok ()
      ∧ (IntervalClicker.connect (IntervalClicker.new none) (.arr [])).2
          = IntervalClicker.new none
      ∧ (ScheduledClicker.connect ScheduledClicker.new (.arr [])).1 = .ok () := by
  refine ⟨rfl, rfl, rfl⟩

/-- Claim C9 as amended: for every non-closed clicker, connect fails
with an error exactly when the argument is null or undefined; a single
destination or a list of destinations is accepted (an empty list is
accepted as a no-op rather than rejected) and every given destination
is added to the destination set. -/
theorem claimC9_connect_amended (si : IntervalState) (ss : ScheduledState)
    (hi : si.state ≠ .closed) (hs : ss.state ≠ .closed)
    (d : ℕ) (ds : List ℕ) :
    IntervalClicker.connect si .nullish = (.error .noDestination, si) ∧
    ScheduledClicker.connect ss .nullish = (.error .noDestination, ss) ∧
    IntervalClicker.connect si (.arr []) = (.ok (), si) ∧
    ScheduledClicker.connect ss (.arr []) = (.ok (), ss) ∧
    (IntervalClicker.connect si (.single d)).1 = .ok () ∧
    d ∈ (IntervalClicker.connect si (.single d)).2.destinations ∧
    (IntervalClicker.connect si (.arr ds)).1 = .ok () ∧
    (∀ x ∈ ds, x ∈ (IntervalClicker.connect si (.arr ds)).2.destinations) ∧
    (ScheduledClicker.connect ss (.single d)).1 = .ok () ∧
    d ∈ (ScheduledClicker.connect ss (.single d)).2.destinations ∧
    (ScheduledClicker.connect ss (.arr ds)).1 = .ok () ∧
    (∀ x ∈ ds, x ∈ (ScheduledClicker.connect ss (.arr ds)).2.destinations) := by
  have e1 := intervalConnect_not_closed si hi (.single d) (by simp)
  have e2 := intervalConnect_not_closed si hi (.arr ds) (by simp)
  have e3 := scheduledConnect_not_closed ss hs (.single d) (by simp)
  have e4 := scheduledConnect_not_closed ss hs (.arr ds) (by simp)
  have e5 := intervalConnect_not_closed si hi (.arr []) (by simp)
  have e6 := scheduledConnect_not_closed ss hs (.arr []) (by simp)
  refine ⟨?_, ?_, ?_, ?_, ?_, ?_, ?_, ?_, ?_, ?_, ?_, ?_⟩
  · unfold IntervalClicker.connect; simp [hi]
  · unfold ScheduledClicker.connect; simp [hs]
  · rw [e5]; rfl
  · rw [e6]; rfl
  · rw [e1]
  · rw [e1]
    show d ∈ (([d] : List ℕ).foldl IntervalClicker.connectStep si).destinations
    rw [intervalConnect_foldl_destinations]
    exact mem_foldl_addDestination _ _ _ (Or.inl (by simp))
  · rw [e2]
  · intro x hx
    rw [e2]
    show x ∈ (ds.foldl IntervalClicker.connectStep si).destinations
    rw [intervalConnect_foldl_destinations]
    exact mem_foldl_addDestination _ _ _ (Or.inl hx)
  · rw [e3]
  · rw [e3]
    show d ∈ (([d] : List ℕ).foldl ScheduledClicker.connectStep ss).destinations
    rw [scheduledConnect_foldl_destinations]
    exact mem_foldl_addDestination _ _ _ (Or.inl (by simp))
  · rw [e4]
  · intro x hx
    rw [e4]
    show x ∈ (ds.foldl ScheduledClicker.connectStep ss).destinations
    rw [scheduledConnect_foldl_destinations]
    exact mem_foldl_addDestination _ _ _ (Or.inl hx)

/-- Witness for the amended claim C9 on fresh clickers and destinations
7 and [3, 5]. -/
theorem claimC9_witness :
    IntervalClicker.connect (IntervalClicker.new none) .nullish
      = (.error .noDestination, IntervalClicker.new none) ∧
    7 ∈ (IntervalClicker.connect (IntervalClicker.new none) (.single 7)).2.destinations ∧
    3 ∈ (ScheduledClicker.connect ScheduledClicker.new (.arr [3, 5])).2.destinations := by
  have h := claimC9_connect_amended (IntervalClicker.new none)
    ScheduledClicker.new (by decide) (by decide) 7 [3, 5]
  exact ⟨h.1, h.2.2.2.2.2.1, h.2.2.2.2.2.2.2.2.2.2.2 3 (by decide)⟩

/-- The effective seconds-per-click value of an interval argument as
described by the spec: the time field for "spc", 60 over it for "bpm"
(for any other type tag the call is rejected before the value is
read; this definition then returns the raw time field, unused). -/
def effectiveSpc (arg : IntervalArg) : JSNum :=
  if arg.type = "bpm" then js60div arg.time else arg.time

lemma js60div_num (t : ℚ) (ht : t ≠ 0) : js60div (.num t) = .num (60 / t) := by
  simp only [js60div]
  rw [if_neg ht]

lemma IntervalClicker.start_arg_bpm (s : IntervalState)
    (hs : s.state ≠ .closed) (now : ℚ) (when : JSNum) (t : JSNum)
    (hw : whenInvalid when = false) :
    (IntervalClicker.start s now when ⟨t, "bpm"⟩).arg = ⟨js60div t, "bpm"⟩ := by
  unfold IntervalClicker.start
  rw [if_neg hs]
  rw [if_neg (by rw [hw]; simp : ¬(whenInvalid when = true))]
  rw [if_neg (by simp :
    ¬(IntervalArg.type ⟨t, "bpm"⟩ ≠ "spc" ∧ IntervalArg.type ⟨t, "bpm"⟩ ≠ "bpm"))]
  rw [if_pos (rfl : IntervalArg.type ⟨t, "bpm"⟩ = "bpm")]
  dsimp only
  split <;> rfl

lemma IntervalClicker.start_bpm_bad (s : IntervalState)
    (hs : s.state ≠ .closed) (now : ℚ) (when : JSNum) (t : JSNum)
    (hw : whenInvalid when = false)
    (hbad : intervalTimeInvalid (js60div t) = true) :
    (IntervalClicker.start s now when ⟨t, "bpm"⟩).result
        = .error .badIntervalTime ∧
    (IntervalClicker.start s now when ⟨t, "bpm"⟩).state = s := by
  unfold IntervalClicker.start
  rw [if_neg hs]
  rw [if_neg (by rw [hw]; simp : ¬(whenInvalid when = true))]
  rw [if_neg (by simp :
    ¬(IntervalArg.type ⟨t, "bpm"⟩ ≠ "spc" ∧ IntervalArg.type ⟨t, "bpm"⟩ ≠ "bpm"))]
  rw [if_pos (rfl : IntervalArg.type ⟨t, "bpm"⟩ = "bpm")]
  dsimp only
  rw [if_pos (hbad : intervalTimeInvalid (js60div t) = true)]
  exact ⟨rfl, rfl⟩

lemma IntervalClicker.start_state_cases (s : IntervalState) (now : ℚ)
    (when : JSNum) (arg : IntervalArg) :
    (IntervalClicker.start s now when arg).state = s ∨
    (IntervalClicker.start s now when arg).state.state = .active := by
  unfold IntervalClicker.start
  dsimp only
  split_ifs <;> first | exact Or.inl rfl | exact Or.inr rfl

/-- Claim C10: IntervalClicker.start mutates the caller-supplied
interval argument object.  With type "bpm" and time t (finite, not 0),
the returned argument object has time 60 / t with type still "bpm";
when 60 / t is below MIN_INTERVAL the call fails with the validation
error yet the mutation has already happened; and a second start call
fed the returned argument object converts the converted value again,
to 60 / (60 / t). -/
theorem claimC10_start_mutates_interval_arg (s : IntervalState)
    (hs : s.state ≠ .closed) (now now2 : ℚ) (when when2 : JSNum)
    (hw : whenInvalid when = false) (hw2 : whenInvalid when2 = false)
    (t : ℚ) (ht : t ≠ 0) :
    (IntervalClicker.start s now when ⟨.num t, "bpm"⟩).arg
        = ⟨.num (60 / t), "bpm"⟩ ∧
    (60 / t < minInterval →
      (IntervalClicker.start s now when ⟨.num t, "bpm"⟩).result
          = .error .badIntervalTime ∧
      (IntervalClicker.start s now when ⟨.num t, "bpm"⟩).state = s) ∧
    (IntervalClicker.start
        (IntervalClicker.start s now when ⟨.num t, "bpm"⟩).state now2 when2
        (IntervalClicker.start s now when ⟨.num t, "bpm"⟩).arg).arg
      = ⟨.num (60 / (60 / t)), "bpm"⟩ := by
  have h60 : (60 : ℚ) / t ≠ 0 := div_ne_zero (by norm_num) ht
  have harg := IntervalClicker.start_arg_bpm s hs now when (.num t) hw
  rw [js60div_num t ht] at harg
  have hstate : (IntervalClicker.start s now when ⟨.num t, "bpm"⟩).state.state
      ≠ .closed := by
    rcases IntervalClicker.start_state_cases s now when ⟨.num t, "bpm"⟩ with h | h
    · rw [h]; exact hs
    · rw [h]; decide
  refine ⟨harg, ?_, ?_⟩
  · intro hlt
    refine IntervalClicker.start_bpm_bad s hs now when (.num t) hw ?_
    rw [js60div_num t ht]
    unfold intervalTimeInvalid
    simp [JSNum.isFinite, JSNum.toQ, hlt]
  · rw [harg]
    have h2 := IntervalClicker.start_arg_bpm _ hstate now2 when2
      (.num (60 / t)) hw2
    rw [js60div_num _ h60] at h2
    exact h2

/-- Witness for claim C10 at bpm value 7200: the converted
seconds-per-click value 60 / 7200 = 1 / 120 is below MIN_INTERVAL, so
the call fails, yet the argument object now carries the converted
value. -/
theorem claimC10_witness :
    (IntervalClicker.start (IntervalClicker.new none) 100 (.num 0)
        ⟨.num 7200, "bpm"⟩).arg = ⟨.num (60 / 7200), "bpm"⟩ ∧
    (IntervalClicker.start (IntervalClicker.new none) 100 (.num 0)
        ⟨.num 7200, "bpm"⟩).result = .error .badIntervalTime := by
  have h := claimC10_start_mutates_interval_arg (IntervalClicker.new none)
    (by decide) 100 100 (.num 0) (.num 0) (by decide) (by decide) 7200
    (by norm_num)
  exact ⟨h.1, (h.2.1 (by norm_num [minInterval])).1⟩

/-- Claim C5: IntervalClicker.start rejects with a validation error
(distinct from the lifecycle error) whenever the when argument is not a
finite number at least 0, or the interval type tag is neither "spc" nor
"bpm", or the effective seconds-per-click value is not finite or below
MIN_INTERVAL; every such rejection leaves the clicker state, counters
and live sources unchanged (the returned state is the input state). -/
theorem claimC5_interval_start_validation (s : IntervalState)
    (hs : s.state ≠ .closed) (now : ℚ) (when : JSNum) (arg : IntervalArg)
    (hbad : whenInvalid when = true
      ∨ (arg.type ≠ "spc" ∧ arg.type ≠ "bpm")
      ∨ intervalTimeInvalid (effectiveSpc arg) = true) :
    (∃ e, e ≠ ClickerError.closedClicker ∧
      (IntervalClicker.start s now when arg).result = .error e) ∧
    (IntervalClicker.start s now when arg).state = s := by
  unfold IntervalClicker.start
  rw [if_neg hs]
  rcases Bool.eq_false_or_eq_true (whenInvalid when) with hwhen | hwhen
  case inl =>
    rw [if_pos hwhen]
    exact ⟨⟨.badWhen, by simp, rfl⟩, rfl⟩
  case inr =>
    rw [if_neg (by rw [hwhen]; simp : ¬(whenInvalid when = true))]
    by_cases htype : arg.type ≠ "spc" ∧ arg.type ≠ "bpm"
    · rw [if_pos htype]
      exact ⟨⟨.badIntervalType, by simp, rfl⟩, rfl⟩
    · rw [if_neg htype]
      have hspc : intervalTimeInvalid (effectiveSpc arg) = true := by
        rcases hbad with h | h | h
        · rw [hwhen] at h; cases h
        · exact absurd h htype
        · exact h
      have harg : (if arg.type = "bpm"
            then { arg with time := js60div arg.time } else arg).time
          = effectiveSpc arg := by
        unfold effectiveSpc
        by_cases hb : arg.type = "bpm"
        · rw [if_pos hb, if_pos hb]
        · rw [if_neg hb, if_neg hb]
      dsimp only
      rw [harg, if_pos hspc]
      exact ⟨⟨.badIntervalTime, by simp, rfl⟩, rfl⟩

/-- Witness for claim C5 at a negative when argument and at a bpm value
whose conversion falls below MIN_INTERVAL, on a fresh clicker. -/
theorem claimC5_witness :
    ((∃ e, e ≠ ClickerError.closedClicker ∧
      (IntervalClicker.start (IntervalClicker.new none) 0 (.num (-1))
          ⟨.num ((1 : ℚ) / 2), "spc"⟩).result = .error e) ∧
    (IntervalClicker.start (IntervalClicker.new none) 0 (.num (-1))
        ⟨.num ((1 : ℚ) / 2), "spc"⟩).state = IntervalClicker.new none) ∧
    ((∃ e, e ≠ ClickerError.closedClicker ∧
      (IntervalClicker.start (IntervalClicker.new none) 0 (.num 0)
          ⟨.num 7200, "bpm"⟩).result = .error e) ∧
    (IntervalClicker.start (IntervalClicker.new none) 0 (.num 0)
        ⟨.num 7200, "bpm"⟩).state = IntervalClicker.new none) :=
  ⟨claimC5_interval_start_validation _ (by decide) _ _ _
      (Or.inl (by decide)),
    claimC5_interval_start_validation _ (by decide) _ _ _
      (Or.inr (Or.inr (by norm_num [effectiveSpc, js60div, intervalTimeInvalid,
        JSNum.isFinite, JSNum.toQ, minInterval])))⟩

/-- Invariant of the counter loop: the clicks scheduled so far are
exactly beats 0 through sched, the beat n click at time t0 + n * T,
and the current counter never exceeds the scheduling counter. -/
def tickInvariant (t0 T : ℚ) (s : TickState) : Prop :=
  s.clicks = (List.range (s.sched + 1)).map (fun n : ℕ => (n, t0 + (n : ℚ) * T)) ∧
  s.cur ≤ s.sched

lemma tickReachable_invariant (t0 T d : ℚ) (s : TickState)
    (h : TickReachable t0 T d s) : tickInvariant t0 T s := by
  induction h with
  | init startNow hsn =>
    constructor
    · show [(0, t0)] = (List.range (0 + 1)).map (fun n : ℕ => (n, t0 + (n : ℚ) * T))
      simp [List.range_succ]
    · exact le_refl 0
  | step s s' hr hstep ih =>
    cases hstep with
    | tickIdle tau h1 h2 => exact ih
    | tickSched tau h1 h2 =>
      refine ⟨?_, le_trans ih.2 (Nat.le_succ _)⟩
      dsimp only
      rw [ih.1]
      conv_rhs => rw [List.range_succ]
      rw [List.map_append]
      simp
    | clickEnded tau h1 h2 h3 =>
      refine ⟨ih.1, ?_⟩
      show (if s.delivered = 0 then s.cur else s.sched - 1) ≤ s.sched
      split
      · exact ih.2
      · exact Nat.sub_le _ _

lemma tickReachable_recast (t0 T d : ℚ) {s s' : TickState}
    (h : TickReachable t0 T d s) (he : s = s') : TickReachable t0 T d s' :=
  he ▸ h

lemma tickStep_recast (t0 T d : ℚ) {s s' s'' : TickState}
    (h : TickStep t0 T d s s') (he : s' = s'') : TickStep t0 T d s s'' :=
  he ▸ h

/-- Claim C2: for an IntervalClicker started at clock time startNow with
offset W and interval T, every click the counter loop has scheduled in
any reachable state is beat n at absolute time (startNow + W) + n * T;
the time is recomputed from the fixed first-click time, not
accumulated, so tick jitter never shifts it. -/
theorem claimC2_interval_no_drift (startNow W T d : ℚ) (s : TickState)
    (hreach : TickReachable (startNow + W) T d s)
    (n : ℕ) (hn : n < s.clicks.length) :
    s.clicks.getD n (0, 0) = (n, (startNow + W) + n * T) := by
  have hinv := tickReachable_invariant _ _ _ _ hreach
  rw [hinv.1] at hn ⊢
  rw [List.getD_eq_getElem _ _ hn]
  simp

/-- Witness for claim C2: from a start at clock time 6 with offset 0
and interval 1/2, after one scheduling tick at time 7 the click at
index 1 is scheduled at (6 + 0) + 1 * (1/2). -/
theorem claimC2_witness :
    (⟨7, 13/2, 1, 0, [(0, 6), (1, 13/2)], 0⟩ : TickState).clicks.getD 1 (0, 0)
      = (1, (6 + 0 : ℚ) + 1 * (1 / 2)) := by
  have h0 : TickReachable (6 + 0) (1 / 2) (3 / 200) (tickInit (6 + 0) 6) :=
    TickReachable.init 6 (by norm_num)
  have h1 := TickReachable.step _ _ h0
    (TickStep.tickSched (tickInit (6 + 0) 6) 7 (by norm_num [tickInit])
      (by norm_num [tickInit]))
  have hreach := tickReachable_recast (6 + 0) (1 / 2) (3 / 200) h1
    (by norm_num [tickInit] :
      _ = (⟨7, 13/2, 1, 0, [(0, 6), (1, 13/2)], 0⟩ : TickState))
  simpa using claimC2_interval_no_drift 6 0 (1 / 2) (3 / 200)
    (⟨7, 13/2, 1, 0, [(0, 6), (1, 13/2)], 0⟩ : TickState) hreach 1 (by decide)

/-- The counter-loop state used to refute the lag bound of claim C8:
first-click time 10, interval 1/2, click duration 3/200.  After the
tick at 10 schedules beat 1, the ended notification of the initial
click at 2003/200 leaves the current counter untouched, and the tick at
21/2 schedules beat 2: now sched = 2 while cur = 0. -/
def c8BadState : TickState :=
  ⟨21/2, 11, 2, 0, [(0, 10), (1, 21/2), (2, 11)], 1⟩

/-- The reachable state just before, with one notification delivered. -/
def c8MidState : TickState :=
  ⟨2003/200, 21/2, 1, 0, [(0, 10), (1, 21/2)], 1⟩

lemma c8MidState_reachable :
    TickReachable 10 (1/2) (3/200) c8MidState := by
  have h0 : TickReachable 10 (1/2) (3/200) (tickInit 10 10) :=
    TickReachable.init 10 le_rfl
  have h1 := TickReachable.step _ _ h0
    (TickStep.tickSched (tickInit 10 10) 10 le_rfl (by norm_num [tickInit]))
  have h1' := tickReachable_recast 10 (1/2) (3/200) h1
    (by norm_num [tickInit] :
      _ = (⟨10, 21/2, 1, 0, [(0, 10), (1, 21/2)], 0⟩ : TickState))
  have h2 := TickReachable.step _ _ h1'
    (TickStep.clickEnded (⟨10, 21/2, 1, 0, [(0, 10), (1, 21/2)], 0⟩ : TickState)
      (2003/200) (by norm_num) (by norm_num)
      (by norm_num [List.getD]))
  exact tickReachable_recast 10 (1/2) (3/200) h2 (by norm_num [c8MidState])

/-- Counterexample for claim C8: a reachable counter-loop state in
which the scheduling counter exceeds the current counter by 2, not at
most 1.  The trace respects the audio clock exactly: every ended
notification is delivered no earlier than its stop time, and here even
in global time order. -/
theorem claimC8_counterexample :
    TickReachable 10 (1/2) (3/200) c8BadState ∧
    c8BadState.cur + 1 < c8BadState.sched := by
  refine ⟨?_, by norm_num [c8BadState]⟩
  have h3 := TickReachable.step _ _ c8MidState_reachable
    (TickStep.tickSched c8MidState (21/2) (by norm_num [c8MidState])
      (by norm_num [c8MidState]))
  exact tickReachable_recast 10 (1/2) (3/200) h3
    (by norm_num [c8MidState, c8BadState])

/-- Claim C8 as amended: in every reachable counter-loop state the
current counter never exceeds the scheduling counter, and every ended
notification after the initial click leaves the lag at exactly one
(current = scheduling - 1); between a click sound ending and its
notification being processed the lag can exceed one (it reaches 2 in
the counterexample state). -/
theorem claimC8_amended_lag (t0 T d : ℚ) (s : TickState)
    (hreach : TickReachable t0 T d s) :
    s.cur ≤ s.sched ∧
    ∀ s', TickStep t0 T d s s' → s'.delivered = s.delivered + 1 →
      1 ≤ s.delivered → s'.cur + 1 = s'.sched := by
  have hinv := tickReachable_invariant t0 T d s hreach
  refine ⟨hinv.2, ?_⟩
  intro s' hstep hdel hge1
  cases hstep with
  | tickIdle tau h1 h2 => simp at hdel
  | tickSched tau h1 h2 => simp at hdel
  | clickEnded tau h1 h2 h3 =>
    have hne : s.delivered ≠ 0 := by omega
    show (if s.delivered = 0 then s.cur else s.sched - 1) + 1 = s.sched
    rw [if_neg hne]
    have hlen : s.clicks.length = s.sched + 1 := by rw [hinv.1]; simp
    omega

/-- Witness for the amended claim C8: in the reachable mid state the
counters satisfy the bound, and delivering the ended notification of
beat 1 restores the lag to exactly one. -/
theorem claimC8_witness :
    c8MidState.cur ≤ c8MidState.sched ∧
    (⟨2103/200, 21/2, 1, 0, [(0, 10), (1, 21/2)], 2⟩ : TickState).cur + 1
      = (⟨2103/200, 21/2, 1, 0, [(0, 10), (1, 21/2)], 2⟩ : TickState).sched := by
  have h := claimC8_amended_lag 10 (1/2) (3/200) c8MidState c8MidState_reachable
  refine ⟨h.1, ?_⟩
  refine h.2 _ ?_ (by decide) (by decide)
  refine tickStep_recast 10 (1/2) (3/200)
    (TickStep.clickEnded c8MidState (2103/200) (by norm_num [c8MidState])
      (by norm_num [c8MidState]) (by norm_num [c8MidState, List.getD]))
    (by norm_num [c8MidState])

lemma flatRange_length (k m : ℕ) (g : ℕ → ℕ → ℚ) :
    ((List.range k).flatMap (fun i => (List.range m).map (g i))).length
      = k * m := by
  induction k with
  | zero => simp
  | succ n ih =>
    rw [List.range_succ, List.flatMap_append]
    simp [ih, Nat.succ_mul]

lemma flatRange_getD (k m : ℕ) (g : ℕ → ℕ → ℚ) (i j : ℕ)
    (hi : i < k) (hj : j < m) :
    ((List.range k).flatMap (fun i => (List.range m).map (g i))).getD
        (i * m + j) 0 = g i j := by
  induction k with
  | zero => omega
  | succ n ih =>
    rw [List.range_succ, List.flatMap_append]
    rcases Nat.lt_or_ge i n with h | h
    · rw [List.getD_append]
      · exact ih h
      · rw [flatRange_length]
        calc i * m + j < i * m + m := by omega
          _ = (i + 1) * m := (Nat.succ_mul i m).symm
          _ ≤ n * m := Nat.mul_le_mul_right m h
    · have hin : i = n := by omega
      subst hin
      rw [List.getD_append_right]
      · rw [flatRange_length]
        have hidx : i * m + j - i * m = j := by omega
        rw [hidx]
        rw [show ([i].flatMap (fun i => (List.range m).map (g i)))
            = (List.range m).map (g i) by simp]
        rw [List.getD_eq_getElem _ _ (by simpa using hj)]
        simp
      · rw [flatRange_length]
        omega

lemma subdivide_eq (beats : List ℚ) (m : ℕ) :
    subdivide beats m = (List.range (beats.length - 1)).flatMap
      (fun i => (List.range m).map
        (fun j : ℕ => beats.getD i 0
          + (beats.getD (i + 1) 0 - beats.getD i 0) / m * j)) := rfl

lemma subdivide_length (beats : List ℚ) (m : ℕ) :
    (subdivide beats m).length = (beats.length - 1) * m := by
  rw [subdivide_eq, flatRange_length]

lemma subdivide_getD (beats : List ℚ) (m : ℕ) (i j : ℕ)
    (hi : i < beats.length - 1) (hj : j < m) :
    (subdivide beats m).getD (i * m + j) 0
      = beats.getD i 0 + (beats.getD (i + 1) 0 - beats.getD i 0) / m * j := by
  rw [subdivide_eq, flatRange_getD _ _ _ _ _ hi hj]

lemma adjustBeats_pos (beats : List ℚ) (p : ℤ) (hp : 0 < p) :
    adjustBeats beats p
      = subdivide beats (2 ^ p.toNat)
        ++ [beats.getD (beats.length - 1) 0] := by
  unfold adjustBeats
  rw [if_neg (by omega), if_pos hp]

lemma adjustBeats_neg (beats : List ℚ) (p : ℤ) (hp : p < 0) :
    adjustBeats beats p
      = (List.range ((beats.length + 2 ^ (-p).toNat - 1) / 2 ^ (-p).toNat)).map
          (fun i => beats.getD (i * 2 ^ (-p).toNat) 0) := by
  unfold adjustBeats
  rw [if_neg (by omega), if_neg (by omega)]

/-- Claim C6: the tempo-power adjustment of the file-mode controller.
Power 0 returns the beat sequence unchanged; applying power +1 and then
power -1 reproduces the original sequence exactly (the rational model
has no rounding); a positive power p produces (n-1) * 2^p + 1 offsets
in which block i subdivides the interval from beat i to beat i+1 into
2^p equal sub-steps and the final original beat is appended; a negative
power keeps every 2^(-p)-th original beat, with ceiling-division
length. -/
theorem claimC6_tempo_power_adjustment (beats : List ℚ) (hne : beats ≠ [])
    (hmono : List.Chain' (· < ·) beats) (p : ℤ) :
    adjustBeats beats 0 = beats ∧
    adjustBeats (adjustBeats beats 1) (-1) = beats ∧
    (0 < p →
      (adjustBeats beats p).length = (beats.length - 1) * 2 ^ p.toNat + 1 ∧
      (∀ i j : ℕ, i < beats.length - 1 → j < 2 ^ p.toNat →
        (adjustBeats beats p).getD (i * 2 ^ p.toNat + j) 0
          = beats.getD i 0
            + (beats.getD (i + 1) 0 - beats.getD i 0) / (2 ^ p.toNat : ℕ) * j) ∧
      (adjustBeats beats p).getD ((beats.length - 1) * 2 ^ p.toNat) 0
        = beats.getD (beats.length - 1) 0) ∧
    (p < 0 →
      (adjustBeats beats p).length
        = (beats.length + 2 ^ (-p).toNat - 1) / 2 ^ (-p).toNat ∧
      ∀ i : ℕ, i < (adjustBeats beats p).length →
        (adjustBeats beats p).getD i 0 = beats.getD (i * 2 ^ (-p).toNat) 0) := by
  have hn : 1 ≤ beats.length := List.length_pos.mpr hne
  refine ⟨by unfold adjustBeats; rw [if_pos rfl], ?_, ?_, ?_⟩
  · -- round trip: subdivide by 2, then keep every 2nd entry
    rw [adjustBeats_pos beats 1 (by omega)]
    rw [adjustBeats_neg _ (-1) (by omega)]
    have hm : ((1 : ℤ)).toNat = 1 := rfl
    have hm' : ((-(-1) : ℤ)).toNat = 1 := rfl
    rw [show (2 : ℕ) ^ ((1 : ℤ)).toNat = 2 from rfl,
        show (2 : ℕ) ^ ((-(-1) : ℤ)).toNat = 2 from rfl]
    have hlen : (subdivide beats 2 ++ [beats.getD (beats.length - 1) 0]).length
        = (beats.length - 1) * 2 + 1 := by
      rw [List.length_append, subdivide_length]
      rfl
    rw [hlen]
    have hcount : ((beats.length - 1) * 2 + 1 + 2 - 1) / 2 = beats.length := by
      omega
    rw [hcount]
    apply List.ext_getElem
    · simp
    · intro i h1i h2i
      simp only [List.getElem_map, List.getElem_range]
      rcases Nat.lt_or_ge i (beats.length - 1) with hi | hi
      · rw [List.getD_append _ _ _ _ (by rw [subdivide_length]; omega)]
        have hsub := subdivide_getD beats 2 i 0 hi (by omega)
        rw [Nat.add_zero] at hsub
        rw [hsub]
        rw [List.getD_eq_getElem _ _ (by omega)]
        simp
      · have hieq : i = beats.length - 1 := by
          simp only [List.length_map, List.length_range] at h1i
          omega
        subst hieq
        rw [List.getD_append_right _ _ _ _ (by rw [subdivide_length])]
        rw [subdivide_length, Nat.sub_self]
        show beats.getD (beats.length - 1) 0 = _
        rw [List.getD_eq_getElem _ _ (by omega)]
  · intro hp
    rw [adjustBeats_pos beats p hp]
    refine ⟨?_, ?_, ?_⟩
    · rw [List.length_append, subdivide_length]
      rfl
    · intro i j hi hj
      rw [List.getD_append _ _ _ _ (by
        rw [subdivide_length]
        calc i * 2 ^ p.toNat + j < i * 2 ^ p.toNat + 2 ^ p.toNat := by omega
          _ = (i + 1) * 2 ^ p.toNat := (Nat.succ_mul _ _).symm
          _ ≤ (beats.length - 1) * 2 ^ p.toNat :=
            Nat.mul_le_mul_right _ (by omega))]
      exact subdivide_getD beats _ i j hi hj
    · rw [List.getD_append_right _ _ _ _ (by rw [subdivide_length])]
      rw [subdivide_length, Nat.sub_self]
      rfl
  · intro hp
    rw [adjustBeats_neg beats p hp]
    refine ⟨by simp, ?_⟩
    intro i hilt
    simp only [List.length_map, List.length_range] at hilt
    rw [List.getD_eq_getElem _ _ (by simpa using hilt)]
    simp

/-- Witness for claim C6 at the strictly increasing beat sequence
[1, 2, 4]: power 0 is the identity and the +1 / -1 round trip
reproduces the sequence. -/
theorem claimC6_witness :
    adjustBeats ([1, 2, 4] : List ℚ) 0 = [1, 2, 4] ∧
    adjustBeats (adjustBeats ([1, 2, 4] : List ℚ) 1) (-1) = [1, 2, 4] := by
  have h := claimC6_tempo_power_adjustment [1, 2, 4] (by simp)
    (by simp [List.chain'_cons]; norm_num) 1
  exact ⟨h.1, h.2.1⟩

lemma c4_scan_ok : ScheduledClicker.scan [1, 2, 3/2] 0 0 = .ok 0 := by
  rw [ScheduledClicker.scan.eq_def]
  norm_num [List.getD]

lemma c4_schedLoop_err : ScheduledClicker.schedLoop [] [1, 2, 3/2] 0 0 0 0 0 []
    = (.error (.nonConsecutive 0 1 1 (3/2)),
      [ScheduledClicker.mkSchedSource [] [1, 2, 3/2] 0 0 0 0]) := by
  rw [ScheduledClicker.schedLoop.eq_def]
  norm_num [List.getD]
  rw [ScheduledClicker.schedLoop.eq_def]
  norm_num [List.getD]

lemma c4_scan_ok2 : ScheduledClicker.scan [1, 1/2] 0 0 = .ok 0 := by
  rw [ScheduledClicker.scan.eq_def]
  norm_num [List.getD]

lemma c4_schedLoop_err2 : ScheduledClicker.schedLoop [] [1, 1/2] 0 0 0 0 0 []
    = (.error (.nonConsecutive 0 1 1 (1/2)), []) := by
  rw [ScheduledClicker.schedLoop.eq_def]
  norm_num [List.getD]

/-- Claim C4, checked against the code: a clicks sequence that is not
strictly increasing does make ScheduledClicker.start fail with the
non-consecutive error, and for [1, 0.5] with resumeAfter 0 the error
indeed references indices 0 and 1; but for [1, 2, 1.5] the offending
adjacent pair is at indices 1 and 2 with values 2 and 1.5, while the
error raised by the scheduling loop carries indices 0 and 1 and the
value at index 0 (the loop interpolates clicks[c] and the fixed pair
[c] >= [c+1] instead of c+i and c+i+1), so it does not identify the
offending pair as the claim requires. -/
theorem claimC4_nonconsecutive_error_misreported :
    (ScheduledClicker.start ScheduledClicker.new 0 (.num 0) [1, 2, 3/2]
        (.num 0)).1 = .error (.nonConsecutive 0 1 1 (3/2)) ∧
    ¬ (([1, 2, 3/2] : List ℚ).getD 0 0 ≥ ([1, 2, 3/2] : List ℚ).getD 1 0) ∧
    (([1, 2, 3/2] : List ℚ).getD 1 0 ≥ ([1, 2, 3/2] : List ℚ).getD 2 0) ∧
    (ScheduledClicker.start ScheduledClicker.new 0 (.num 0) [1, 1/2]
        (.num 0)).1 = .error (.nonConsecutive 0 1 1 (1/2)) := by
  refine ⟨?_, by norm_num [List.getD], by norm_num [List.getD], ?_⟩
  · unfold ScheduledClicker.start
    norm_num [ScheduledClicker.new, whenInvalid, JSNum.isFinite, JSNum.toQ,
      c4_scan_ok, List.getD, c4_schedLoop_err]
    rw [if_neg (show ¬(ClickerState.ready = ClickerState.closed) by decide)]
  · unfold ScheduledClicker.start
    norm_num [ScheduledClicker.new, whenInvalid, JSNum.isFinite, JSNum.toQ,
      c4_scan_ok2, List.getD, c4_schedLoop_err2]
    rw [if_neg (show ¬(ClickerState.ready = ClickerState.closed) by decide)]

lemma chain'_lt_getD (clicks : List ℚ) (hmono : List.Chain' (· < ·) clicks)
    (i : ℕ) (hi : i + 1 < clicks.length) :
    clicks.getD i 0 < clicks.getD (i + 1) 0 := by
  have h := List.chain'_iff_get.mp hmono i (by omega)
  rw [List.getD_eq_getElem _ _ (by omega), List.getD_eq_getElem _ _ hi]
  simpa using h

lemma scan_eq_of (clicks : List ℚ) (r : ℚ) (c c₀ : ℕ)
    (hlen : c₀ < clicks.length) (hc : c ≤ c₀)
    (hstop : ¬(c₀ < clicks.length - 1 ∧ clicks.getD c₀ 0 < r))
    (hbefore : ∀ i, c ≤ i → i < c₀ → clicks.getD i 0 < r)
    (hinc : ∀ i, i + 1 < clicks.length →
      clicks.getD i 0 < clicks.getD (i + 1) 0) :
    ScheduledClicker.scan clicks r c = .ok c₀ := by
  rw [ScheduledClicker.scan.eq_def]
  by_cases h : c < clicks.length - 1 ∧ clicks.getD c 0 < r
  · rw [dif_pos h]
    have hcc : c < c₀ := by
      by_contra hcon
      have hce : c = c₀ := by omega
      subst hce
      exact hstop h
    have hpair := hinc c (by omega)
    dsimp only
    rw [if_neg (not_le.mpr hpair)]
    exact scan_eq_of clicks r (c + 1) c₀ hlen (by omega) hstop
      (fun i h1 h2 => hbefore i (by omega) h2) hinc
  · rw [dif_neg h]
    have hce : c = c₀ := by
      by_contra hne
      have hlt : c < c₀ := by omega
      exact h ⟨by omega, hbefore c le_rfl hlt⟩
    rw [hce]
termination_by c₀ - c

lemma schedLoop_eq_of (dests : List ℕ) (clicks : List ℚ) (now r o : ℚ)
    (c i : ℕ) (acc : List SchedSource)
    (hlt : c + i < clicks.length)
    (hinc : ∀ k, k + 1 < clicks.length →
      clicks.getD k 0 < clicks.getD (k + 1) 0) :
    ScheduledClicker.schedLoop dests clicks now r o c i acc
      = (.ok (), acc ++ (List.range (clicks.length - (c + i))).map
          (fun k => ScheduledClicker.mkSchedSource dests clicks now r o
            (c + i + k))) := by
  rw [ScheduledClicker.schedLoop.eq_def]
  by_cases h : c + i < clicks.length - 1
  · rw [dif_pos h]
    have hpair := hinc (c + i) (by omega)
    dsimp only
    rw [if_neg (not_le.mpr hpair)]
    rw [schedLoop_eq_of dests clicks now r o c (i + 1)
      (acc ++ [ScheduledClicker.mkSchedSource dests clicks now r o (c + i)])
      (by omega) hinc]
    rw [List.append_assoc]
    congr 1
    have hn : clicks.length - (c + i) = (clicks.length - (c + i + 1)) + 1 := by
      omega
    rw [hn, List.range_succ_eq_map, List.map_cons, List.map_map,
      List.singleton_append]
    refine congrArg (fun t => acc ++ t) ?_
    refine congrArg₂ List.cons rfl ?_
    apply List.map_congr_left
    intro a _
    simp only [Function.comp]
    congr 1
    omega
  · rw [dif_neg h]
    have hone : clicks.length - (c + i) = 1 := by omega
    rw [hone, show List.range 1 = [0] from rfl]
    simp only [List.map_cons, List.map_nil, Nat.add_zero]
termination_by clicks.length - (c + i)

/-- Claim C1: ScheduledClicker.start with a finite non-negative resume
point, a non-empty strictly increasing clicks list and a finite offset.
When some click time is at or after the resume point (a click exactly
at it included), with c₀ the first such index, the call succeeds, the
clicker becomes active, and exactly one click is scheduled for each
index from c₀ through the last, the one for index c₀ + k starting at
absolute time now + (clicks[c₀ + k] - resumeAfter) + offset.  When
every click time is strictly below the resume point the call returns
normally with the clicker in the ready state and no scheduled click. -/
theorem claimC1_scheduled_start_suffix (s : ScheduledState)
    (hs : s.state ≠ .closed) (now rq oq : ℚ) (clicks : List ℚ)
    (hne : clicks ≠ []) (hmono : List.Chain' (· < ·) clicks)
    (hr : 0 ≤ rq) :
    (∀ c₀ : ℕ, c₀ < clicks.length → rq ≤ clicks.getD c₀ 0 →
      (∀ i, i < c₀ → clicks.getD i 0 < rq) →
      (ScheduledClicker.start s now (.num rq) clicks (.num oq)).1 = .ok () ∧
      (ScheduledClicker.start s now (.num rq) clicks (.num oq)).2.state
        = .active ∧
      (ScheduledClicker.start s now (.num rq) clicks
        (.num oq)).2.sources.length = clicks.length - c₀ ∧
      (∀ k, k < clicks.length - c₀ →
        ((ScheduledClicker.start s now (.num rq) clicks
            (.num oq)).2.sources.getD k default).clickIndex = c₀ + k ∧
        ((ScheduledClicker.start s now (.num rq) clicks
            (.num oq)).2.sources.getD k default).startTime
          = now + (clicks.getD (c₀ + k) 0 - rq) + oq)) ∧
    ((∀ i, i < clicks.length → clicks.getD i 0 < rq) →
      (ScheduledClicker.start s now (.num rq) clicks (.num oq)).1 = .ok () ∧
      (ScheduledClicker.start s now (.num rq) clicks (.num oq)).2.state
        = .ready ∧
      (ScheduledClicker.start s now (.num rq) clicks (.num oq)).2.sources
        = []) := by
  have hlen0 : 1 ≤ clicks.length := List.length_pos.mpr hne
  have hinc : ∀ i, i + 1 < clicks.length →
      clicks.getD i 0 < clicks.getD (i + 1) 0 := chain'_lt_getD clicks hmono
  have hw : whenInvalid (JSNum.num rq) = false := by
    unfold whenInvalid
    simp [JSNum.isFinite, JSNum.toQ]
    exact hr
  have hemp : clicks.isEmpty = false := by
    cases clicks with
    | nil => cases hne rfl
    | cons a l => rfl
  constructor
  · intro c₀ hclen hge hbefore
    have hscan : ScheduledClicker.scan clicks rq 0 = .ok c₀ :=
      scan_eq_of clicks rq 0 c₀ hclen (Nat.zero_le _)
        (fun h => absurd h.2 (not_lt.mpr hge))
        (fun i _ h2 => hbefore i h2) hinc
    unfold ScheduledClicker.start
    rw [if_neg hs]
    rw [if_neg (by rw [hw]; simp : ¬(whenInvalid (JSNum.num rq) = true))]
    rw [if_neg (by rw [hemp]; simp : ¬(clicks.isEmpty = true))]
    rw [if_neg (by simp [JSNum.isFinite] : ¬((!(JSNum.num oq).isFinite) = true))]
    dsimp only [JSNum.toQ]
    rw [hscan]
    dsimp only
    rw [if_neg (not_lt.mpr hge)]
    rw [schedLoop_eq_of _ clicks now rq oq c₀ 0 [] (by omega) hinc]
    refine ⟨rfl, rfl, ?_, ?_⟩
    · simp
    · intro k hk
      rw [List.nil_append, List.getD_eq_getElem _ _ (by simpa using hk)]
      constructor
      · simp [ScheduledClicker.mkSchedSource]
      · simp [ScheduledClicker.mkSchedSource]
  · intro hall
    have hscan : ScheduledClicker.scan clicks rq 0 = .ok (clicks.length - 1) :=
      scan_eq_of clicks rq 0 (clicks.length - 1) (by omega) (Nat.zero_le _)
        (fun h => absurd h.1 (by omega))
        (fun i _ h2 => hall i (by omega)) hinc
    unfold ScheduledClicker.start
    rw [if_neg hs]
    rw [if_neg (by rw [hw]; simp : ¬(whenInvalid (JSNum.num rq) = true))]
    rw [if_neg (by rw [hemp]; simp : ¬(clicks.isEmpty = true))]
    rw [if_neg (by simp [JSNum.isFinite] : ¬((!(JSNum.num oq).isFinite) = true))]
    dsimp only [JSNum.toQ]
    rw [hscan]
    dsimp only
    rw [if_pos (hall _ (by omega))]
    unfold ScheduledClicker.pause
    dsimp only
    rw [if_neg hs]
    exact ⟨rfl, rfl, rfl⟩

/-- Witness for claim C1 at clicks [0.5, 1, 1.5, 2]: with resume point
0.9 exactly three clicks are scheduled, for indices 1, 2, 3, the first
at time 0 + (1 - 9/10) + 0; with resume point 2.5 (past the last click)
the call returns normally, ready, with nothing scheduled. -/
theorem claimC1_witness :
    (ScheduledClicker.start ScheduledClicker.new 0 (.num (9/10))
        [1/2, 1, 3/2, 2] (.num 0)).1 = .ok () ∧
    (ScheduledClicker.start ScheduledClicker.new 0 (.num (9/10))
        [1/2, 1, 3/2, 2] (.num 0)).2.sources.length = 3 ∧
    ((ScheduledClicker.start ScheduledClicker.new 0 (.num (9/10))
        [1/2, 1, 3/2, 2] (.num 0)).2.sources.getD 0 default).clickIndex = 1 ∧
    ((ScheduledClicker.start ScheduledClicker.new 0 (.num (9/10))
        [1/2, 1, 3/2, 2] (.num 0)).2.sources.getD 0 default).startTime
      = 0 + (1 - 9/10) + 0 ∧
    (ScheduledClicker.start ScheduledClicker.new 0 (.num (5/2))
        [1/2, 1, 3/2, 2] (.num 0)).2.state = .ready ∧
    (ScheduledClicker.start ScheduledClicker.new 0 (.num (5/2))
        [1/2, 1, 3/2, 2] (.num 0)).2.sources = [] := by
  have hmono : List.Chain' (· < ·) ([1/2, 1, 3/2, 2] : List ℚ) := by
    simp [List.chain'_cons]
    norm_num
  have hA := (claimC1_scheduled_start_suffix ScheduledClicker.new (by decide)
    0 (9/10) 0 [1/2, 1, 3/2, 2] (by simp) hmono (by norm_num)).1 1
    (by norm_num) (by norm_num [List.getD])
    (by
      intro i hi
      have hi0 : i = 0 := by omega
      subst hi0
      norm_num [List.getD])
  have hB := (claimC1_scheduled_start_suffix ScheduledClicker.new (by decide)
    0 (5/2) 0 [1/2, 1, 3/2, 2] (by simp) hmono (by norm_num)).2
    (by
      intro i hi
      simp at hi
      interval_cases i <;> norm_num [List.getD])
  refine ⟨hA.1, ?_, ?_, ?_, hB.2.1, hB.2.2⟩
  · simpa using hA.2.2.1
  · simpa using (hA.2.2.2 0 (by norm_num)).1
  · simpa using (hA.2.2.2 0 (by norm_num)).2

end TimeKeeper
